import Mathlib

/-!
Verification of the Hue lighting-choreography engine specification against
its source. Go float64 arithmetic is embedded as exact rational arithmetic
over ℚ; Go strings are Lean String / List Char; Go time.Duration is ℤ
(nanoseconds); fallible operations return Option/Except; network effects are
reified as lists of NetCall values.
-/

namespace HueMcp

/-! ## Color conversion (client/hue.go: hexToXY, pow) -/

/-- Value of an ASCII hex digit, as accepted by the %x verb of fmt.Sscanf. -/
def hexDigitVal (c : Char) : Option Nat :=
  if ('0' ≤ c ∧ c ≤ '9') then some (c.toNat - '0'.toNat)
  else if ('a' ≤ c ∧ c ≤ 'f') then some (c.toNat - 'a'.toNat + 10)
  else if ('A' ≤ c ∧ c ≤ 'F') then some (c.toNat - 'A'.toNat + 10)
  else none

/-- Leading whitespace skipped by a numeric scanning verb. -/
def skipSpaces (s : List Char) : List Char :=
  s.dropWhile (fun c => c = ' ' ∨ c = '\t' ∨ c = '\n' ∨ c = '\r')

/-- One %02x conversion: skip spaces, then read one or (greedily) two hex
digits. Returns none when no hex digit is available, matching the point at
which fmt.Sscanf stops and leaves the remaining operands at their zero
values. -/
def scanHex2 (s : List Char) : Option (Nat × List Char) :=
  match skipSpaces s with
  | [] => none
  | c1 :: rest1 =>
    match hexDigitVal c1 with
    | none => none
    | some d1 =>
      match rest1 with
      | [] => some (d1, [])
      | c2 :: rest2 =>
        match hexDigitVal c2 with
        | none => some (d1, rest1)
        | some d2 => some (16 * d1 + d2, rest2)

/-- fmt.Sscanf(hex, "%02x%02x%02x", &r, &g, &b) with errors ignored: each
variable keeps its zero value from the first failing conversion onwards. -/
def sscanf3Hex (s : List Char) : Nat × Nat × Nat :=
  match scanHex2 s with
  | none => (0, 0, 0)
  | some (r, s1) =>
    match scanHex2 s1 with
    | none => (r, 0, 0)
    | some (g, s2) =>
      match scanHex2 s2 with
      | none => (r, g, 0)
      | some (b, _) => (r, g, b)

/-- strings.TrimPrefix(hex, "#"). -/
def trimHash (s : List Char) : List Char :=
  match s with
  | '#' :: rest => rest
  | _ => s

/-- The pow helper of client/hue.go: result starts at 1.0 and the loop body
multiplies by base while i < int(exp), so the exponent is truncated to its
integer part (⌊exp⌋.toNat iterations for every rational exp, matching the
Go loop which runs zero times for int(exp) ≤ 0). -/
def pow (base exp : ℚ) : ℚ :=
  base ^ (Int.toNat ⌊exp⌋)

/-- The per-channel inverse-gamma step of hexToXY, with the literal
constants of the source. -/
def gammaCorrect (t : ℚ) : ℚ :=
  if t > 0.04045 then pow ((t + 0.055) / 1.055) 2.4
  else t / 12.92

/-- Body of hexToXY after parsing: scale to 0–1, gamma-correct, apply the
sRGB→XYZ matrix, normalize; the D65 white point when X+Y+Z = 0. -/
def rgbToXY (r g b : Nat) : ℚ × ℚ :=
  let rf := gammaCorrect ((r : ℚ) / 255)
  let gf := gammaCorrect ((g : ℚ) / 255)
  let bf := gammaCorrect ((b : ℚ) / 255)
  let x := rf * 0.4124564 + gf * 0.3575761 + bf * 0.1804375
  let y := rf * 0.2126729 + gf * 0.7151522 + bf * 0.0721750
  let z := rf * 0.0193339 + gf * 0.1191920 + bf * 0.9503041
  let sum := x + y + z
  if sum = 0 then (0.3127, 0.3290)
  else (x / sum, y / sum)

/-- hexToXY from client/hue.go. -/
def hexToXY (hex : String) : ℚ × ℚ :=
  match sscanf3Hex (trimHash hex.toList) with
  | (r, g, b) => rgbToXY r g b

/-- C3: the claim states that for every channel value t > 0.04045 the code
computes ((t+0.055)/1.055) raised to the real power 2.4. In fact pow
truncates the exponent to int(2.4) = 2 and computes the square: at the
channel value t = 128/255 (hex byte 0x80) the code yields
((t+0.055)/1.055)^2 = (5681/10761)^2, which differs from the claimed
(5681/10761)^2.4. -/
theorem c3_gamma_squares_not_rpow :
    gammaCorrect (128 / 255) = (5681 / 10761 : ℚ) ^ 2 ∧
    ((5681 / 10761 : ℝ)) ^ (2.4 : ℝ) ≠ ((gammaCorrect (128 / 255) : ℚ) : ℝ) := by
  have h1 : gammaCorrect (128 / 255) = (5681 / 10761 : ℚ) ^ 2 := by
    have hc : (128 / 255 : ℚ) > 0.04045 := by norm_num
    have hfloor : (⌊(2.4 : ℚ)⌋) = 2 := by norm_num
    unfold gammaCorrect pow
    rw [if_pos hc, hfloor, show Int.toNat 2 = 2 from rfl]
    norm_num
  refine ⟨h1, ?_⟩
  have hcast : ((gammaCorrect (128 / 255) : ℚ) : ℝ) = ((5681 : ℝ) / 10761) ^ (2 : ℕ) := by
    rw [h1]; push_cast; ring
  have hlt : ((5681 : ℝ) / 10761) ^ (2.4 : ℝ) < ((5681 : ℝ) / 10761) ^ ((2 : ℕ) : ℝ) := by
    apply Real.rpow_lt_rpow_of_exponent_gt (by norm_num) (by norm_num) (by norm_num)
  rw [Real.rpow_natCast] at hlt
  rw [hcast]
  exact ne_of_lt hlt

/-- C10: hexToXY is total by construction; whenever the first %02x
conversion fails (the input after the optional # starts with no parseable
hex digit), all three channels stay 0 and the result is the D65 white point,
identical to the result for "#000000". -/
theorem c10_hexToXY_total_default_white (s : String)
    (h : scanHex2 (trimHash s.toList) = none) :
    hexToXY s = (0.3127, 0.3290) ∧ hexToXY "#000000" = hexToXY s := by
  have hs : sscanf3Hex (trimHash s.toList) = (0, 0, 0) := by
    unfold sscanf3Hex; rw [h]
  have hzero : rgbToXY 0 0 0 = (0.3127, 0.3290) := by
    norm_num [rgbToXY, gammaCorrect]
  have hmain : hexToXY s = (0.3127, 0.3290) := by
    unfold hexToXY; rw [hs]; exact hzero
  refine ⟨hmain, ?_⟩
  rw [hmain]
  have hp : sscanf3Hex (trimHash (String.toList "#000000")) = (0, 0, 0) := by decide
  unfold hexToXY
  rw [hp]
  exact hzero

/-- Witness for C10 at the concrete input "not a color!". -/
theorem c10_hexToXY_total_default_white_witness :
    hexToXY "not a color!" = (0.3127, 0.3290) ∧
    hexToXY "#000000" = hexToXY "not a color!" :=
  c10_hexToXY_total_default_white "not a color!" (by decide)

/-! ## Event stream consumer (mcp events file, client event stream) -/

/-- client.Event, with the payload reduced to the fields the buffer and
filter logic inspect: the event type and an identifier. -/
structure Event where
  type : String
  id : String
deriving DecidableEq

/-- InitEventManager sets maxEvents to 1000. -/
def initMaxEvents : ℕ := 1000

/-- EventManager.storeEvent: append the event, then trim the buffer to its
last maxEvents entries when it exceeds maxEvents. -/
def storeEvent (maxEvents : ℕ) (recentEvents : List Event) (event : Event) : List Event :=
  if maxEvents < (recentEvents ++ [event]).length then
    (recentEvents ++ [event]).drop ((recentEvents ++ [event]).length - maxEvents)
  else recentEvents ++ [event]

/-- EventStream.FilterEvents: forwards exactly the events whose type is in
the type set (or everything when the set is empty); filtered-out events are
consumed and dropped. -/
def filterEvents (types : List String) (incoming : List Event) : List Event :=
  incoming.filter (fun e => types.contains e.type || types.isEmpty)

/-- EventManager.processEvents: reads from the filtered channel when a
filter was supplied, otherwise from the raw channel, and stores every event
it receives. The result is the recent-events buffer after the whole incoming
sequence has been processed. -/
def processEvents (maxEvents : ℕ) (filterTypes : List String) (incoming : List Event) :
    List Event :=
  if 0 < filterTypes.length then
    (filterEvents filterTypes incoming).foldl (storeEvent maxEvents) []
  else incoming.foldl (storeEvent maxEvents) []

/-- HandleGetRecentEvents: newest first, skipping events whose type differs
from a non-empty requested type, clipped to the limit. -/
def getRecentEvents (recentEvents : List Event) (limit : ℕ) (type : String) : List Event :=
  (recentEvents.reverse.filter (fun e => type == "" || e.type == type)).take limit

/-- Closed form of the buffer: folding storeEvent over a whole event
sequence retains exactly the suffix of the last maxEvents events. -/
theorem foldl_storeEvent_eq (maxEvents : ℕ) (events : List Event) :
    events.foldl (storeEvent maxEvents) [] = events.drop (events.length - maxEvents) := by
  induction events using List.reverseRecOn with
  | nil => simp
  | append_singleton evs e ih =>
    rw [List.foldl_append, List.foldl_cons, List.foldl_nil, ih]
    unfold storeEvent
    rcases Nat.lt_or_ge evs.length maxEvents with hlen | hlen
    · have hk : evs.length - maxEvents = 0 := by omega
      rw [hk, List.drop_zero, if_neg (by simp; omega)]
      have hk2 : (evs ++ [e]).length - maxEvents = 0 := by simp; omega
      rw [hk2, List.drop_zero]
    · have hdropA : evs.drop (evs.length - maxEvents) ++ [e] =
          (evs ++ [e]).drop (evs.length - maxEvents) := by
        rw [List.drop_append_of_le_length (by omega)]
      have hlenA : (evs.drop (evs.length - maxEvents) ++ [e]).length = maxEvents + 1 := by
        simp; omega
      rw [hlenA]
      rw [if_pos (by omega)]
      rw [hdropA, List.drop_drop]
      congr 1
      simp
      omega

/-- C9: after folding more than maxEvents events into the (initially empty)
buffer, the buffer holds exactly maxEvents entries and they are the suffix
of most recently received events; the initial manager uses maxEvents =
1000. -/
theorem c9_event_buffer_cap (maxEvents : ℕ) (events : List Event)
    (h : maxEvents < events.length) :
    initMaxEvents = 1000 ∧
    (events.foldl (storeEvent maxEvents) []).length = maxEvents ∧
    events.foldl (storeEvent maxEvents) [] = events.drop (events.length - maxEvents) := by
  refine ⟨rfl, ?_, foldl_storeEvent_eq _ _⟩
  rw [foldl_storeEvent_eq, List.length_drop]
  omega

/-- Witness for C9: three events through a buffer capped at two. -/
theorem c9_event_buffer_cap_witness :
    initMaxEvents = 1000 ∧
    (([⟨"motion", "e1"⟩, ⟨"motion", "e2"⟩, ⟨"button", "e3"⟩] :
        List Event).foldl (storeEvent 2) []).length = 2 ∧
    ([⟨"motion", "e1"⟩, ⟨"motion", "e2"⟩, ⟨"button", "e3"⟩] :
        List Event).foldl (storeEvent 2) [] =
      ([⟨"motion", "e1"⟩, ⟨"motion", "e2"⟩, ⟨"button", "e3"⟩] :
        List Event).drop (([⟨"motion", "e1"⟩, ⟨"motion", "e2"⟩, ⟨"button", "e3"⟩] :
        List Event).length - 2) :=
  c9_event_buffer_cap 2 [⟨"motion", "e1"⟩, ⟨"motion", "e2"⟩, ⟨"button", "e3"⟩] (by decide)

/-- C1 counterexample: with filter "motion", a received button event is
never appended to the recent-events buffer (the filtered channel drops it
before storeEvent runs), so a later get_recent_events for type "button"
returns nothing — the claim said the buffer retains all events regardless
of filter. -/
theorem c1_counterexample :
    processEvents 1000 ["motion"] [⟨"button", "button-1"⟩] = [] ∧
    getRecentEvents (processEvents 1000 ["motion"] [⟨"button", "button-1"⟩]) 50 "button" = [] := by
  constructor <;> rfl

/-- C1 amended: when a non-empty filter is in force, the buffer receives
exactly the events whose type matches the filter; events of any type not in
the filter are absent, so get_recent_events for such a type returns the
empty list. -/
theorem c1_amended_filter_restricts_buffer (maxEvents : ℕ) (filterTypes : List String)
    (incoming : List Event) (limit : ℕ) (t : String)
    (hne : filterTypes ≠ []) (ht : t ∉ filterTypes) (ht0 : t ≠ "") :
    processEvents maxEvents filterTypes incoming =
      (incoming.filter (fun e => filterTypes.contains e.type)).foldl (storeEvent maxEvents) [] ∧
    getRecentEvents (processEvents maxEvents filterTypes incoming) limit t = [] := by
  have hpos : 0 < filterTypes.length := List.length_pos.mpr hne
  have hfe : filterEvents filterTypes incoming =
      incoming.filter (fun e => filterTypes.contains e.type) := by
    unfold filterEvents
    apply List.filter_congr
    intro a _
    cases filterTypes with
    | nil => exact absurd rfl hne
    | cons x xs => simp [List.isEmpty]
  have hproc : processEvents maxEvents filterTypes incoming =
      (incoming.filter (fun e => filterTypes.contains e.type)).foldl (storeEvent maxEvents) [] := by
    unfold processEvents
    rw [if_pos hpos, hfe]
  refine ⟨hproc, ?_⟩
  rw [hproc, foldl_storeEvent_eq]
  unfold getRecentEvents
  have hnil : ((incoming.filter (fun e => filterTypes.contains e.type)).drop
      ((incoming.filter (fun e => filterTypes.contains e.type)).length - maxEvents)).reverse.filter
      (fun e => t == "" || e.type == t) = [] := by
    rw [List.filter_eq_nil_iff]
    intro e he
    rw [List.mem_reverse] at he
    have hmem : e ∈ incoming.filter (fun e => filterTypes.contains e.type) :=
      List.drop_subset _ _ he
    have htype : filterTypes.contains e.type = true := (List.mem_filter.mp hmem).2
    have htmem : e.type ∈ filterTypes := by
      simpa using htype
    simp only [Bool.or_eq_true, beq_iff_eq]
    rintro (h1 | h2)
    · exact ht0 h1
    · exact ht (h2 ▸ htmem)
  rw [hnil, List.take_nil]

/-- Witness for the amended C1 at the concrete scenario of the spec. -/
theorem c1_amended_filter_restricts_buffer_witness :
    processEvents 1000 ["motion"] [⟨"button", "button-1"⟩] =
      (([⟨"button", "button-1"⟩] : List Event).filter
        (fun e => (["motion"] : List String).contains e.type)).foldl (storeEvent 1000) [] ∧
    getRecentEvents (processEvents 1000 ["motion"] [⟨"button", "button-1"⟩]) 50 "button" = [] :=
  c1_amended_filter_restricts_buffer 1000 ["motion"] [⟨"button", "button-1"⟩] 50 "button"
    (by decide) (by decide) (by decide)

/-! ## Async batch execution (mcp/mcp.go: ExecuteBatchAsync) -/

/-- Cancellation scope a command is executed under: the caller context of
the originating tool call, or the fresh context.Background created by
ExecuteBatchAsync. -/
inductive GoCtx where
  | caller
  | background
deriving DecidableEq

/-- BatchCommand fields consumed by executeBatchCommand. -/
structure BatchCmd where
  action : String
  targetID : String
  value : String
deriving DecidableEq

/-- ExecuteBatchAsync. Caller cancellation is modeled by an Option ℕ: some k
means the caller context becomes Done before the check preceding the
(k+1)-th command; none means it is never cancelled. Before each command the
loop selects on ctx.Done() and returns; each command that does run is
dispatched with asyncCtx = context.Background(). -/
def executeBatchAsync : List BatchCmd → Option ℕ → List (BatchCmd × GoCtx)
  | _, some 0 => []
  | [], _ => []
  | c :: cs, some (k + 1) => (c, GoCtx.background) :: executeBatchAsync cs (some k)
  | c :: cs, none => (c, GoCtx.background) :: executeBatchAsync cs none

/-- C2 counterexample: a two-command async batch whose caller context is
cancelled after the first command executes only that first command — the
second is never dispatched, refuting the claim that caller cancellation
never terminates the batch before its last command. -/
theorem c2_counterexample :
    executeBatchAsync [⟨"light_on", "L1", ""⟩, ⟨"light_off", "L1", ""⟩] (some 1) =
      [(⟨"light_on", "L1", ""⟩, GoCtx.background)] ∧
    (⟨"light_off", "L1", ""⟩, GoCtx.background) ∉
      executeBatchAsync [⟨"light_on", "L1", ""⟩, ⟨"light_off", "L1", ""⟩] (some 1) := by
  constructor
  · rfl
  · decide

/-- C2 amended: every dispatched command of an async batch runs under the
detached background context (so cancellation never interrupts a command in
flight), but the loop re-checks the caller context before each command:
cancellation after k commands stops the batch at exactly the first k
commands, and only a never-cancelled caller context executes them all. -/
theorem c2_amended_async_prefix (cmds : List BatchCmd) (k : ℕ) :
    executeBatchAsync cmds (some k) = (cmds.take k).map (fun c => (c, GoCtx.background)) ∧
    executeBatchAsync cmds none = cmds.map (fun c => (c, GoCtx.background)) := by
  constructor
  · induction cmds generalizing k with
    | nil => cases k <;> rfl
    | cons c cs ih =>
      cases k with
      | zero => rfl
      | succ k => simp [executeBatchAsync, ih]
  · induction cmds with
    | nil => rfl
    | cons c cs ih => simp [executeBatchAsync, ih]

/-! ## Name resolution (cmd resolve file: resolveLightID) -/

/-- strings.EqualFold restricted to ASCII case folding, which covers the
names exercised here. -/
def eqFold (a b : String) : Bool :=
  a.toList.map Char.toLower == b.toList.map Char.toLower

/-- strings.ToLower on the characters of a string. -/
def toLowerStr (s : String) : List Char :=
  s.toList.map Char.toLower

/-- strings.Contains: b occurs as a contiguous substring of a. -/
def hasSub (a b : List Char) : Bool :=
  (List.range (a.length + 1)).any (fun i => b.isPrefixOf (a.drop i))

/-- A light as seen by the resolver: id and metadata name. -/
structure LightRes where
  id : String
  name : String
deriving DecidableEq

/-- Errors of resolveLightID; the multiple-match error carries the
candidate list that the source formats into its message. -/
inductive ResolveErr where
  | noMatch (nameOrID : String)
  | multipleMatches (nameOrID : String) (candidates : List LightRes)
deriving DecidableEq

/-- The partial-match candidate list built by resolveLightID. -/
def substrMatches (lights : List LightRes) (nameOrID : String) : List LightRes :=
  lights.filter (fun l => hasSub (toLowerStr l.name) (toLowerStr nameOrID))

/-- resolveLightID: UUID passthrough, then first case-insensitive exact
match, then the substring-match stage with its disambiguation error. -/
def resolveLightID (lights : List LightRes) (nameOrID : String) :
    Except ResolveErr String :=
  if '-' ∈ nameOrID.toList ∧ 30 < nameOrID.length then .ok nameOrID
  else
    match lights.find? (fun l => eqFold l.name nameOrID) with
    | some l => .ok l.id
    | none =>
      match substrMatches lights nameOrID with
      | [] => .error (.noMatch nameOrID)
      | [m] => .ok m.id
      | ms => .error (.multipleMatches nameOrID ms)

/-- C4 counterexample: two lights both named "Lamp" — resolving "Lamp"
returns the first light's id from the exact-match loop instead of failing
with a disambiguation error, so a mutation would be sent to light-1. -/
theorem c4_counterexample :
    resolveLightID [⟨"light-1", "Lamp"⟩, ⟨"light-2", "Lamp"⟩] "Lamp" =
      Except.ok "light-1" := by
  rfl

/-- C4 amended: the exact-match stage returns the id of the first light
whose name matches case-insensitively, even when several lights share that
name; the disambiguation error listing all candidates arises only when no
exact match exists and two or more lights match as substrings. -/
theorem c4_amended_first_exact_match (lights : List LightRes) (nameOrID : String)
    (l : LightRes) (hnotid : ¬ ('-' ∈ nameOrID.toList ∧ 30 < nameOrID.length)) :
    (lights.find? (fun l => eqFold l.name nameOrID) = some l →
      resolveLightID lights nameOrID = .ok l.id) ∧
    (lights.find? (fun l => eqFold l.name nameOrID) = none →
      2 ≤ (substrMatches lights nameOrID).length →
      resolveLightID lights nameOrID =
        .error (.multipleMatches nameOrID (substrMatches lights nameOrID))) := by
  constructor
  · intro hfind
    unfold resolveLightID
    rw [if_neg hnotid, hfind]
  · intro hfind hlen
    unfold resolveLightID
    rw [if_neg hnotid, hfind]
    rcases hms : substrMatches lights nameOrID with _ | ⟨a, _ | ⟨b, rest⟩⟩
    · rw [hms] at hlen
      simp at hlen
    · rw [hms] at hlen
      simp at hlen
    · rfl

/-- Witness for the amended C4: a unique exact match resolves to its id; a
query matching two lights only as a substring yields the disambiguation
error carrying both candidates. -/
theorem c4_amended_first_exact_match_witness :
    resolveLightID [⟨"light-1", "Lamp"⟩] "lamp" = Except.ok "light-1" ∧
    resolveLightID [⟨"id-floor", "Floor Lamp"⟩, ⟨"id-desk", "Desk Lamp"⟩] "lamp" =
      Except.error (.multipleMatches "lamp"
        (substrMatches [⟨"id-floor", "Floor Lamp"⟩, ⟨"id-desk", "Desk Lamp"⟩] "lamp")) :=
  ⟨(c4_amended_first_exact_match [⟨"light-1", "Lamp"⟩] "lamp" ⟨"light-1", "Lamp"⟩
      (by decide)).1 (by rfl),
   (c4_amended_first_exact_match [⟨"id-floor", "Floor Lamp"⟩, ⟨"id-desk", "Desk Lamp"⟩]
      "lamp" ⟨"", ""⟩ (by decide)).2 (by rfl) (by decide)⟩

/-! ## Bridge mutations and brightness validation (client/hue.go, mcp/mcp.go,
scheduler dispatch) -/

/-- LightUpdate / GroupUpdate reduced to the fields the embedded operations
set. -/
structure LightUpdateM where
  onState : Option Bool := none
  brightness : Option ℚ := none
  colorXY : Option (ℚ × ℚ) := none
deriving DecidableEq

/-- A REST mutation issued to the bridge. -/
inductive NetCall where
  | putLight (id : String) (update : LightUpdateM)
  | putGroup (id : String) (update : LightUpdateM)
  | putScene (id : String)
deriving DecidableEq

/-- Client.SetLightBrightness: a single PUT, no validation. -/
def setLightBrightness (id : String) (brightness : ℚ) : List NetCall :=
  [.putLight id { brightness := some brightness }]

/-- Client.SetGroupBrightness: a single PUT, no validation. -/
def setGroupBrightness (id : String) (brightness : ℚ) : List NetCall :=
  [.putGroup id { brightness := some brightness }]

/-- Client.TurnOnLight. -/
def turnOnLight (id : String) : List NetCall := [.putLight id { onState := some true }]

/-- Client.TurnOffLight. -/
def turnOffLight (id : String) : List NetCall := [.putLight id { onState := some false }]

/-- Client.TurnOnGroup. -/
def turnOnGroup (id : String) : List NetCall := [.putGroup id { onState := some true }]

/-- Client.TurnOffGroup. -/
def turnOffGroup (id : String) : List NetCall := [.putGroup id { onState := some false }]

/-- Client.SetLightColor: converts hex to xy, then PUTs. -/
def setLightColor (id : String) (hexColor : String) : List NetCall :=
  [.putLight id { colorXY := some (hexToXY hexColor) }]

/-- Client.SetGroupColor. -/
def setGroupColor (id : String) (hexColor : String) : List NetCall :=
  [.putGroup id { colorXY := some (hexToXY hexColor) }]

/-- Client.ActivateScene. -/
def activateScene (id : String) : List NetCall := [.putScene id]

/-- Outcome of a handler or dispatch step: the bridge mutations it issued
and whether it reported an error. -/
structure ToolResp where
  calls : List NetCall
  isError : Bool
deriving DecidableEq

/-- HandleLightBrightness (mcp/mcp.go) after argument extraction: range
check before the client call. -/
def handleLightBrightness (lightID : String) (brightness : ℚ) : ToolResp :=
  if brightness < 0 ∨ brightness > 100 then { calls := [], isError := true }
  else { calls := setLightBrightness lightID brightness, isError := false }

/-- HandleGroupBrightness (mcp/mcp.go). -/
def handleGroupBrightness (groupID : String) (brightness : ℚ) : ToolResp :=
  if brightness < 0 ∨ brightness > 100 then { calls := [], isError := true }
  else { calls := setGroupBrightness groupID brightness, isError := false }

/-- The light_brightness arm of executeBatchCommand; valueNum is the result
of strconv.ParseFloat on the value string, none on parse failure. -/
def executeBatchLightBrightness (targetID : String) (valueNum : Option ℚ) : ToolResp :=
  match valueNum with
  | none => { calls := [], isError := true }
  | some brightness =>
    if brightness < 0 ∨ brightness > 100 then { calls := [], isError := true }
    else { calls := setLightBrightness targetID brightness, isError := false }

/-- The group_brightness arm of executeBatchCommand. -/
def executeBatchGroupBrightness (targetID : String) (valueNum : Option ℚ) : ToolResp :=
  match valueNum with
  | none => { calls := [], isError := true }
  | some brightness =>
    if brightness < 0 ∨ brightness > 100 then { calls := [], isError := true }
    else { calls := setGroupBrightness targetID brightness, isError := false }

/-- scheduler.Command, with the parameter map reduced to the brightness and
color keys the dispatch reads; delay is time.Duration in nanoseconds. -/
structure Command where
  type : String
  action : String
  target : String
  brightness : Option ℚ := none
  color : Option String := none
  delay : ℤ := 0
deriving DecidableEq

/-- Scheduler.executeLightCommand: dispatch on the action verb; the
brightness arm forwards the parameter to the client with no range check. -/
def executeLightCommand (cmd : Command) : ToolResp :=
  match cmd.action with
  | "on" => { calls := turnOnLight cmd.target, isError := false }
  | "off" => { calls := turnOffLight cmd.target, isError := false }
  | "brightness" =>
    match cmd.brightness with
    | some b => { calls := setLightBrightness cmd.target b, isError := false }
    | none => { calls := [], isError := true }
  | "color" =>
    match cmd.color with
    | some c => { calls := setLightColor cmd.target c, isError := false }
    | none => { calls := [], isError := true }
  | _ => { calls := [], isError := true }

/-- Scheduler.executeGroupCommand: same shape against the grouped light. -/
def executeGroupCommand (cmd : Command) : ToolResp :=
  match cmd.action with
  | "on" => { calls := turnOnGroup cmd.target, isError := false }
  | "off" => { calls := turnOffGroup cmd.target, isError := false }
  | "brightness" =>
    match cmd.brightness with
    | some b => { calls := setGroupBrightness cmd.target b, isError := false }
    | none => { calls := [], isError := true }
  | "color" =>
    match cmd.color with
    | some c => { calls := setGroupColor cmd.target c, isError := false }
    | none => { calls := [], isError := true }
  | _ => { calls := [], isError := true }

/-- C5 counterexample: a sequence-scheduler brightness command with value
150 issues the bridge PUT with brightness 150 and reports no input error —
the scheduler path performs no [0, 100] check. -/
theorem c5_counterexample :
    executeLightCommand
        { type := "light", action := "brightness", target := "L1", brightness := some 150 } =
      { calls := [NetCall.putLight "L1" { brightness := some (150 : ℚ) }], isError := false } := by
  rfl

/-- C5 amended: the light_brightness and group_brightness tools and the
batch brightness actions reject out-of-range values before any network
call, but the scheduler's brightness dispatch forwards any value to the
bridge unvalidated. -/
theorem c5_amended_brightness_bounds (id : String) (b : ℚ) (hb : b < 0 ∨ b > 100) :
    handleLightBrightness id b = { calls := [], isError := true } ∧
    handleGroupBrightness id b = { calls := [], isError := true } ∧
    executeBatchLightBrightness id (some b) = { calls := [], isError := true } ∧
    executeBatchGroupBrightness id (some b) = { calls := [], isError := true } ∧
    executeLightCommand
        { type := "light", action := "brightness", target := id, brightness := some b } =
      { calls := setLightBrightness id b, isError := false } ∧
    executeGroupCommand
        { type := "group", action := "brightness", target := id, brightness := some b } =
      { calls := setGroupBrightness id b, isError := false } := by
  refine ⟨?_, ?_, ?_, ?_, rfl, rfl⟩
  · unfold handleLightBrightness
    rw [if_pos hb]
  · unfold handleGroupBrightness
    rw [if_pos hb]
  · show (if b < 0 ∨ b > 100 then _ else _) = _
    rw [if_pos hb]
  · show (if b < 0 ∨ b > 100 then _ else _) = _
    rw [if_pos hb]

/-- Witness for the amended C5 at brightness 150. -/
theorem c5_amended_brightness_bounds_witness :
    handleLightBrightness "L1" 150 = { calls := [], isError := true } ∧
    handleGroupBrightness "L1" 150 = { calls := [], isError := true } ∧
    executeBatchLightBrightness "L1" (some 150) = { calls := [], isError := true } ∧
    executeBatchGroupBrightness "L1" (some 150) = { calls := [], isError := true } ∧
    executeLightCommand
        { type := "light", action := "brightness", target := "L1", brightness := some 150 } =
      { calls := setLightBrightness "L1" 150, isError := false } ∧
    executeGroupCommand
        { type := "group", action := "brightness", target := "L1", brightness := some 150 } =
      { calls := setGroupBrightness "L1" 150, isError := false } :=
  c5_amended_brightness_bounds "L1" 150 (by norm_num)

/-! ## Scene cache (mcp/scene_cache.go) -/

/-- CachedScene: the stored record; creation time is an integer timestamp
and commands keep the shape of batch commands. -/
structure CachedScene where
  name : String
  commands : List BatchCmd
  delayMs : ℤ
  description : String
  createdAt : ℤ
  usageCount : ℕ
deriving DecidableEq

/-- The scene store, name → scene. -/
abbrev SceneCache := List (String × CachedScene)

/-- Map lookup on the store. -/
def cacheFind (sc : SceneCache) (name : String) : Option CachedScene :=
  (sc.find? (fun p => p.1 == name)).map (fun p => p.2)

/-- In-place update of the stored scene pointer. -/
def cacheSet (sc : SceneCache) (name : String) (scene : CachedScene) : SceneCache :=
  sc.map (fun p => if p.1 == name then (p.1, scene) else p)

/-- SceneCache.GetScene: lookup, then increment the stored scene's usage
counter; the returned scene is the stored (incremented) one. -/
def getScene (sc : SceneCache) (name : String) : Option (CachedScene × SceneCache) :=
  match cacheFind sc name with
  | none => none
  | some scene =>
    some ({ scene with usageCount := scene.usageCount + 1 },
      cacheSet sc name { scene with usageCount := scene.usageCount + 1 })

/-- SceneCache.ListScenes: a snapshot of the stored values, no mutation. -/
def listScenes (sc : SceneCache) : List CachedScene :=
  sc.map (fun p => p.2)

/-- HandleExportScene: fetches the scene through getScene — thereby
incrementing its usage counter — and renders it (the JSON formatting is not
modeled); the resulting store carries the increment. -/
def handleExportScene (sc : SceneCache) (name : String) :
    Option (CachedScene × SceneCache) :=
  getScene sc name

/-- A store holding one scene "go" that has never been recalled. -/
def exportDemoCache : SceneCache :=
  [("go", { name := "go", commands := [⟨"light_on", "L1", ""⟩], delayMs := 50,
            description := "", createdAt := 0, usageCount := 0 })]

/-- C6: export goes through getScene and therefore mutates: exporting the
never-recalled scene "go" bumps its stored usageCount from 0 to 1, against
the claim that export leaves the stored fields unchanged; listScenes, by
contrast, reads the store directly. -/
theorem c6_export_increments_usage :
    handleExportScene exportDemoCache "go" =
      some ({ name := "go", commands := [⟨"light_on", "L1", ""⟩], delayMs := 50,
              description := "", createdAt := 0, usageCount := 1 },
        [("go", { name := "go", commands := [⟨"light_on", "L1", ""⟩], delayMs := 50,
                  description := "", createdAt := 0, usageCount := 1 })]) ∧
    listScenes exportDemoCache =
      [{ name := "go", commands := [⟨"light_on", "L1", ""⟩], delayMs := 50,
         description := "", createdAt := 0, usageCount := 0 }] := by
  constructor
  · rfl
  · rfl

/-! ## Entertainment UDP streamer (hue/entertainment.go: sendUDPPacket) -/

/-- A light enrolled in an entertainment channel (member.Service.RID). -/
structure ChannelMember where
  rid : String
deriving DecidableEq

/-- EntertainmentChannel: channel id and its members. -/
structure EntChannel where
  channelID : ℕ
  members : List ChannelMember
deriving DecidableEq

/-- Entertainment configuration reduced to its channel list. -/
structure EntConfig where
  channels : List EntChannel
deriving DecidableEq

/-- EntertainmentUpdate: a 16-bit color for one light. -/
structure EntUpdate where
  lightID : String
  red : ℕ
  green : ℕ
  blue : ℕ
deriving DecidableEq

/-- binary.LittleEndian.PutUint16 of a value reduced to uint16. -/
def u16le (v : ℕ) : List ℕ :=
  [v % 65536 % 256, v % 65536 / 256]

/-- The colorData map keyed by LightID built from the update slice; a later
entry overwrites an earlier one, as for a Go map. -/
def lookupUpdate (updates : List EntUpdate) (rid : String) : Option EntUpdate :=
  updates.foldl (fun acc u => if u.lightID == rid then some u else acc) none

/-- The ASCII bytes of the "HueStream" protocol magic. -/
def hueStreamHeaderBytes : List ℕ :=
  "HueStream".toList.map Char.toNat

/-- The 16-byte packet header: magic, version 0x02 0x00, sequence byte,
two reserved bytes, color mode 0x01, reserved byte. -/
def entHeader (sequence2 : ℕ) : List ℕ :=
  hueStreamHeaderBytes ++ [2, 0, sequence2, 0, 0, 1, 0]

/-- The 8 bytes one channel member contributes: u16le channel id, then
u16le red, green, blue of its update (default all-zero = off). -/
def memberBytes (channelID : ℕ) (updates : List EntUpdate) (m : ChannelMember) : List ℕ :=
  let u := (lookupUpdate updates m.rid).getD { lightID := m.rid, red := 0, green := 0, blue := 0 }
  u16le channelID ++ u16le u.red ++ u16le u.green ++ u16le u.blue

/-- The per-channel color data section of the packet: the source iterates
channels and, inside each, the channel's members. -/
def entBody (config : EntConfig) (updates : List EntUpdate) : List ℕ :=
  config.channels.flatMap (fun ch => ch.members.flatMap (memberBytes ch.channelID updates))

/-- EntertainmentStreamer.sendUDPPacket: increments the uint8 sequence,
then emits header plus body. Returns the packet and the new sequence. -/
def sendUDPPacket (config : EntConfig) (sequence : ℕ) (updates : List EntUpdate) :
    List ℕ × ℕ :=
  ((entHeader ((sequence + 1) % 256)) ++ entBody config updates, (sequence + 1) % 256)

/-- Total number of channel members over the whole configuration. -/
def totalMembers (config : EntConfig) : ℕ :=
  (config.channels.map (fun ch => ch.members.length)).sum

theorem memberBytes_length (channelID : ℕ) (updates : List EntUpdate) (m : ChannelMember) :
    (memberBytes channelID updates m).length = 8 := by
  simp [memberBytes, u16le]

theorem members_bind_length (channelID : ℕ) (updates : List EntUpdate)
    (ms : List ChannelMember) :
    (ms.flatMap (memberBytes channelID updates)).length = 8 * ms.length := by
  induction ms with
  | nil => rfl
  | cons m ms ih =>
    simp only [List.flatMap_cons, List.length_append, List.length_cons, ih,
      memberBytes_length]
    ring

theorem entBody_length (config : EntConfig) (updates : List EntUpdate) :
    (entBody config updates).length = 8 * totalMembers config := by
  unfold entBody totalMembers
  induction config.channels with
  | nil => rfl
  | cons ch chs ih =>
    simp only [List.flatMap_cons, List.length_append, List.map_cons, List.sum_cons, ih,
      members_bind_length]
    ring

theorem entHeader_length (sequence2 : ℕ) : (entHeader sequence2).length = 16 := by
  simp [entHeader, hueStreamHeaderBytes]

/-- C7 counterexample: for a configuration of one channel with one member,
the emitted packet has 24 bytes (the source writes a two-byte channel id
plus three two-byte colors, 8 bytes per member), not the claimed
16 + 7·channels = 23. -/
theorem c7_counterexample :
    (sendUDPPacket ⟨[⟨0, [⟨"light-1"⟩]⟩]⟩ 0 [⟨"light-1", 257, 514, 771⟩]).1.length = 24 ∧
    (sendUDPPacket ⟨[⟨0, [⟨"light-1"⟩]⟩]⟩ 0 [⟨"light-1", 257, 514, 771⟩]).1.length ≠
      16 + 7 * (⟨[⟨0, [⟨"light-1"⟩]⟩]⟩ : EntConfig).channels.length := by
  constructor
  · rfl
  · decide

/-- C7 amended: every packet (send_colors frame or keep-alive) starts with
the 9 ASCII bytes of "HueStream" followed by 0x02 0x00, has total length
16 + 8·(total members over all channels), carries the incremented sequence
(sequence + 1 mod 256) at offset 11, and the next packet's sequence byte is
again one greater modulo 256. -/
theorem c7_amended_packet_framing (config : EntConfig) (sequence : ℕ)
    (u1 u2 : List EntUpdate) :
    (sendUDPPacket config sequence u1).1.take 11 = hueStreamHeaderBytes ++ [2, 0] ∧
    (sendUDPPacket config sequence u1).1.length = 16 + 8 * totalMembers config ∧
    (sendUDPPacket config sequence u1).1[11]? = some ((sequence + 1) % 256) ∧
    (sendUDPPacket config sequence u1).2 = (sequence + 1) % 256 ∧
    (sendUDPPacket config (sendUDPPacket config sequence u1).2 u2).1[11]? =
      some (((sequence + 1) % 256 + 1) % 256) := by
  have htake : ∀ s2 : ℕ, (entHeader s2).take 11 = hueStreamHeaderBytes ++ [2, 0] := by
    intro s2
    unfold entHeader
    rw [show (11 : ℕ) = hueStreamHeaderBytes.length + 2 from by decide, List.take_append]
    rfl
  have hget : ∀ (s2 : ℕ) (body : List ℕ), (entHeader s2 ++ body)[11]? = some s2 := by
    intro s2 body
    rw [List.getElem?_append_left (by rw [entHeader_length]; omega)]
    unfold entHeader
    rw [show (11 : ℕ) = hueStreamHeaderBytes.length + 2 from by decide,
      List.getElem?_append_right (by omega)]
    simp
  refine ⟨?_, ?_, ?_, rfl, ?_⟩
  · show ((entHeader ((sequence + 1) % 256)) ++ entBody config u1).take 11 = _
    rw [List.take_append_of_le_length (by rw [entHeader_length]; omega), htake]
  · show ((entHeader ((sequence + 1) % 256)) ++ entBody config u1).length = _
    rw [List.length_append, entHeader_length, entBody_length]
  · exact hget _ _
  · exact hget _ _

/-! ## Pulse effect factory (scheduler effects: CreatePulseEffect) -/

/-- scheduler.Sequence as produced by the effect factories. -/
structure Sequence where
  name : String
  commands : List Command
  loop : Bool
deriving DecidableEq

/-- time.Millisecond in nanoseconds. -/
def millisecond : ℤ := 1000000

/-- CreatePulseEffect: per cycle, five up steps (j = 0..4) then five down
steps (j = 5..1), brightness linearly interpolated, each command carrying
the pre-delay stepDuration = pulseDuration / 10. -/
def createPulseEffect (targetID : String) (minBrightness maxBrightness : ℚ)
    (pulseDuration : ℤ) (pulseCount : ℕ) : Sequence :=
  let stepDuration := pulseDuration / 10
  let up := (List.range 5).map (fun j =>
    ({ type := "light", action := "brightness", target := targetID,
       brightness := some (minBrightness + (maxBrightness - minBrightness) * (j : ℚ) / 5),
       delay := stepDuration } : Command))
  let down := (List.range 5).map (fun i =>
    ({ type := "light", action := "brightness", target := targetID,
       brightness := some (minBrightness + (maxBrightness - minBrightness) * ((5 : ℚ) - (i : ℚ)) / 5),
       delay := stepDuration } : Command))
  { name := "Pulse " ++ targetID,
    commands := (List.range pulseCount).flatMap (fun _ => up ++ down),
    loop := false }

/-- HandlePulseEffect: converts pulse_duration_ms to a Duration and builds
the pulse sequence. -/
def handlePulseEffect (targetID : String) (minBrightness maxBrightness : ℚ)
    (pulseDurationMs : ℤ) (pulseCount : ℕ) : Sequence :=
  createPulseEffect targetID minBrightness maxBrightness (pulseDurationMs * millisecond)
    pulseCount

/-- The expected shape of one pulse command at 100 ms pre-delay. -/
def pulseStep (targetID : String) (b : ℚ) : Command :=
  { type := "light", action := "brightness", target := targetID,
    brightness := some b, delay := 100 * millisecond }

/-- C8: pulse_effect with min 20, max 80, cycle 1000 ms, count 1 produces
exactly ten brightness commands with values 20, 32, 44, 56, 68, 80, 68,
56, 44, 32 in order, each with a pre-delay of 100 ms (= 1000 ms / 10). -/
theorem c8_pulse_shape :
    (handlePulseEffect "L" 20 80 1000 1).commands =
      [pulseStep "L" 20, pulseStep "L" 32, pulseStep "L" 44, pulseStep "L" 56,
       pulseStep "L" 68, pulseStep "L" 80, pulseStep "L" 68, pulseStep "L" 56,
       pulseStep "L" 44, pulseStep "L" 32] := by
  unfold handlePulseEffect createPulseEffect pulseStep millisecond
  rw [show List.range 5 = [0, 1, 2, 3, 4] from rfl, show List.range 1 = [0] from rfl]
  simp only [List.map_cons, List.map_nil, List.flatMap_cons, List.flatMap_nil,
    List.append_nil, List.cons_append, List.nil_append, List.cons.injEq,
    Command.mk.injEq, Option.some.injEq, and_true, true_and]
  norm_num

end HueMcp
